import Mathlib

/-!
Verification development for the orphaned-branch scanner of `gh-sweep`
(package `internal/orphans` plus the `internal/github` data types it uses).

The Go code is shallowly embedded as follows:

- `time.Time` values are integers counting nanoseconds since an arbitrary
  epoch (Go represents instants as integer nanoseconds); the wall-clock
  instant read by `time.Since` inside `ClassifyBranch` becomes an explicit
  `now : Int` argument.  `int(time.Since(t).Hours() / 24)` — a truncation
  toward zero of the exact quotient — is embedded as `Int.tdiv` of the
  elapsed nanoseconds by the nanoseconds of one 24-hour day.
- Go `error` results become `Except GhError` / `Option GhError` with
  `GhError := String`.
- The GitHub API client is a record of three response functions, one per
  collaborator call the scanner performs.
- `path/filepath.Match` (Go standard library, Unix separator rules) is
  embedded as `filepathMatch`, a faithful translation of its
  scanChunk / matchChunk / getEsc algorithm; `none` models `ErrBadPattern`.
  The recursions are driven by a fuel argument that is large enough to
  never run out: every step of the original loops strictly consumes
  pattern or name characters, and the supplied fuel exceeds their count.
- Goroutine scheduling in `ScanNamespaceWithProgress` is nondeterministic;
  the functional embedding fixes spawn order as completion order, and the
  aggregation step is factored through `aggregateResults`, about which the
  order-independent facts are proved for an arbitrary list of completed
  scans.  The bounded semaphore (buffered channel of capacity
  `Concurrency`) is additionally modelled as a transition system
  (`PoolStep` / `PoolReach`) to state the concurrency-bound claims.
  Progress emission (`progressCh`) never affects the returned value in the
  Go code and is omitted; cancellation (`ctx`) is modelled in its
  never-signalled state, which is the case all claims below concern.
-/

namespace GhSweep

/-- Errors returned by the GitHub API collaborator. -/
abbrev GhError := String

/-! ## Data model (internal/github and internal/orphans types) -/

/-- Embeds `github.Repository` (repository snapshot). -/
structure Repository where
  Name : String
  FullName : String
  Owner : String
  Private : Bool
  Archived : Bool
  DefaultBranch : String
deriving DecidableEq

/-- Embeds `github.Branch`; `Protected` is capitalised as in the Go source
(`LastCommitDate` is in nanoseconds). -/
structure Branch where
  Name : String
  SHA : String
  Protected : Bool
  Ahead : Int
  Behind : Int
  LastCommitDate : Int
deriving DecidableEq

/-- Embeds `github.PRRef` (a pull-request head or base reference). -/
structure PRRef where
  Ref : String
  SHA : String
  Repo : String
deriving DecidableEq

/-- Embeds `github.PullRequest`; `MergedAt` and `ClosedAt` are nullable
timestamps. -/
structure PullRequest where
  Number : Int
  Title : String
  State : String
  Head : PRRef
  Base : PRRef
  MergedAt : Option Int
  ClosedAt : Option Int
deriving DecidableEq

/-- Embeds `orphans.OrphanType`, a closed enumeration (a string type with
four constants in Go). -/
inductive OrphanType where
  | merged_pr
  | closed_pr
  | stale
  | recent_no_pr
deriving DecidableEq

/-- Embeds `OrphanType.Label`. -/
def OrphanType.Label : OrphanType → String
  | .merged_pr => "Merged PR"
  | .closed_pr => "Closed PR"
  | .stale => "Stale"
  | .recent_no_pr => "Recent (no PR)"

/-- Embeds `orphans.OrphanedBranch`; the Go field `Type` is spelled
`Type'` because `Type` is reserved in Lean. -/
structure OrphanedBranch where
  Repository : String
  BranchName : String
  SHA : String
  LastCommitDate : Int
  Type' : OrphanType
  PRNumber : Option Int
  PRTitle : Option String
  DaysSinceActivity : Int
  Protected : Bool
deriving DecidableEq

/-- Embeds `OrphanedBranch.Key`. -/
def OrphanedBranch.Key (o : OrphanedBranch) : String :=
  o.Repository ++ "/" ++ o.BranchName

/-- Embeds `orphans.ScanResult` (one repository's outcome). -/
structure ScanResult where
  Repository : GhSweep.Repository
  Orphans : List OrphanedBranch
  DefaultBranch : String
  Error : Option GhError
deriving DecidableEq

/-- Embeds `orphans.NamespaceScanResult`. -/
structure NamespaceScanResult where
  Namespace : String
  IsOrg : Bool
  Results : List ScanResult
  TotalRepos : Nat
  TotalOrphans : Nat
deriving DecidableEq

/-- Embeds `NamespaceScanResult.AllOrphans` (appends each result's orphan
list in order). -/
def NamespaceScanResult.AllOrphans (r : NamespaceScanResult) : List OrphanedBranch :=
  r.Results.foldl (fun all result => all ++ result.Orphans) []

/-- Embeds `NamespaceScanResult.OrphansByType`. -/
def NamespaceScanResult.OrphansByType (r : NamespaceScanResult) (t : OrphanType) :
    List OrphanedBranch :=
  r.AllOrphans.foldl (fun filtered orphan =>
    if orphan.Type' = t then filtered ++ [orphan] else filtered) []

/-- Embeds `orphans.ScanOptions`.  `Concurrency` is the buffered-channel
capacity of the worker semaphore, hence modelled as `Nat`. -/
structure ScanOptions where
  StaleDaysThreshold : Int
  IncludeRecentNoPR : Bool
  ExcludePatterns : List String
  IncludeProtected : Bool
  Concurrency : Nat
deriving DecidableEq

/-- Embeds `orphans.DefaultScanOptions`. -/
def DefaultScanOptions : ScanOptions :=
  { StaleDaysThreshold := 7
    IncludeRecentNoPR := false
    ExcludePatterns := ["main", "master", "develop", "release/*", "hotfix/*"]
    IncludeProtected := false
    Concurrency := 5 }

/-! ## Embedding of Go path/filepath.Match (Unix separator rules)

The branch-exclusion check calls `filepath.Match(pattern, branchName)`.
The functions below translate the standard library's implementation:
`stripStars`/`scanChunkBody` embed `scanChunk`, `getEsc` and `matchRanges`
embed `getEsc` and the character-class loop of `matchChunk`, `matchChunk`
embeds the chunk-matching loop, and `goMatch`/`starLoop` embed the outer
`Pattern:` loop with its star-backtracking inner loop. -/

/-- Strips the leading run of stars from a pattern, reporting whether at
least one star was present (first loop of Go scanChunk). -/
def stripStars : List Char → Bool × List Char
  | '*' :: rest => (true, (stripStars rest).2)
  | p => (false, p)

/-- Scans a chunk up to the next star that is not inside a character range
(second loop of Go scanChunk); returns the chunk and the rest of the
pattern. -/
def scanChunkBody : List Char → Bool → List Char × List Char
  | [], _ => ([], [])
  | c :: rest, inrange =>
    if c = '\\' then
      match rest with
      | c2 :: rest2 =>
        let (chunk, p) := scanChunkBody rest2 inrange
        (c :: c2 :: chunk, p)
      | [] =>
        let (chunk, p) := scanChunkBody [] inrange
        (c :: chunk, p)
    else if c = '[' then
      let (chunk, p) := scanChunkBody rest true
      (c :: chunk, p)
    else if c = ']' then
      let (chunk, p) := scanChunkBody rest false
      (c :: chunk, p)
    else if c = '*' then
      if inrange then
        let (chunk, p) := scanChunkBody rest inrange
        (c :: chunk, p)
      else ([], c :: rest)
    else
      let (chunk, p) := scanChunkBody rest inrange
      (c :: chunk, p)

/-- Embeds Go scanChunk: strips leading stars, then takes the chunk up to
the next unbracketed star. -/
def scanChunk (pattern : List Char) : Bool × List Char × List Char :=
  let (star, afterStars) := stripStars pattern
  let (chunk, rest) := scanChunkBody afterStars false
  (star, chunk, rest)

/-- Embeds Go getEsc: reads one possibly-escaped character of a character
class; `none` models ErrBadPattern. -/
def getEsc : List Char → Option (Char × List Char)
  | [] => none
  | c :: rest =>
    if c = '-' ∨ c = ']' then none
    else if c = '\\' then
      match rest with
      | [] => none
      | r :: rest2 => if rest2 = [] then none else some (r, rest2)
    else if rest = [] then none else some (c, rest)

/-- Embeds the range-parsing loop of the character-class case of Go
matchChunk.  Each iteration strictly consumes chunk characters, so fuel
exceeding the chunk length never runs out. -/
def matchRanges : Nat → Char → List Char → Nat → Bool → Option (Bool × List Char)
  | 0, _, _, _, _ => none
  | fuel + 1, r, chunk, nrange, matched =>
    match chunk, nrange with
    | ']' :: rest, _ + 1 => some (matched, rest)
    | _, _ =>
      match getEsc chunk with
      | none => none
      | some (lo, chunk1) =>
        match chunk1 with
        | '-' :: chunk2 =>
          match getEsc chunk2 with
          | none => none
          | some (hi, chunk3) =>
            matchRanges fuel r chunk3 (nrange + 1) (matched || (lo ≤ r && r ≤ hi))
        | _ =>
          matchRanges fuel r chunk1 (nrange + 1) (matched || (lo ≤ r && r ≤ lo))

/-- Embeds Go matchChunk: matches a chunk against the start of `s`, with
the `failed` flag delaying rejection so malformed patterns are still
reported as errors.  The outer `Option` models ErrBadPattern; the inner
one is the ok flag, carrying the rest of `s` on success.  Each iteration
strictly consumes chunk characters, so fuel exceeding the chunk length
never runs out. -/
def matchChunk : Nat → List Char → List Char → Bool → Option (Option (List Char))
  | 0, _, _, _ => none
  | fuel + 1, chunk, s, failed =>
    match chunk with
    | [] => if failed then some none else some (some s)
    | c :: chunkRest =>
      let failed0 := failed || s.isEmpty
      if c = '[' then
        let r := if failed0 then Char.ofNat 0 else s.headD (Char.ofNat 0)
        let s1 := if failed0 then s else s.tail
        let negated := chunkRest.head? = some '^'
        let chunk1 := if negated then chunkRest.tail else chunkRest
        match matchRanges (chunk1.length + 1) r chunk1 0 false with
        | none => none
        | some (m, chunk2) =>
          matchChunk fuel chunk2 s1 (failed0 || (m = negated))
      else if c = '?' then
        if failed0 then
          matchChunk fuel chunkRest s true
        else
          matchChunk fuel chunkRest s.tail (s.headD (Char.ofNat 0) = '/')
      else if c = '\\' then
        match chunkRest with
        | [] => none
        | c2 :: chunkRest2 =>
          if failed0 then
            matchChunk fuel chunkRest2 s true
          else
            matchChunk fuel chunkRest2 s.tail (!(c2 = s.headD (Char.ofNat 0)))
      else
        if failed0 then
          matchChunk fuel chunkRest s true
        else
          matchChunk fuel chunkRest s.tail (!(c = s.headD (Char.ofNat 0)))

mutual

/-- Embeds the `Pattern:` loop of Go filepath.Match.  Every call strictly
consumes fuel, and each level consumes a pattern chunk or a name
character, so the fuel supplied by `filepathMatch` never runs out. -/
def goMatch (fuel : Nat) (pattern name : List Char) : Option Bool :=
  match fuel with
  | 0 => none
  | fuel + 1 =>
    match pattern with
    | [] => some name.isEmpty
    | _ :: _ =>
      let (star, chunk, rest) := scanChunk pattern
      if star && chunk.isEmpty then
        some (!name.contains '/')
      else
        match matchChunk (chunk.length + 1) chunk name false with
        | none => none
        | some (some t) =>
          if t.isEmpty || !rest.isEmpty then goMatch fuel rest t
          else if star then starLoop fuel chunk rest name
          else some false
        | some none =>
          if star then starLoop fuel chunk rest name
          else some false

/-- Embeds the star-backtracking inner loop of Go filepath.Match: retries
the chunk after skipping one more non-separator name character. -/
def starLoop (fuel : Nat) (chunk rest name : List Char) : Option Bool :=
  match fuel with
  | 0 => none
  | fuel + 1 =>
    match name with
    | [] => some false
    | c :: nameRest =>
      if c = '/' then some false
      else
        match matchChunk (chunk.length + 1) chunk nameRest false with
        | none => none
        | some (some t) =>
          if rest.isEmpty && !t.isEmpty then starLoop fuel chunk rest nameRest
          else goMatch fuel rest t
        | some none => starLoop fuel chunk rest nameRest

end

/-- Embeds Go filepath.Match on strings; `none` models ErrBadPattern. -/
def filepathMatch (pattern name : String) : Option Bool :=
  goMatch (pattern.length + name.length + 2) pattern.toList name.toList

/-! ## Branch classifier (internal/orphans/detector.go) -/

/-- Embeds `orphans.Detector`. -/
structure Detector where
  options : ScanOptions

/-- Embeds `orphans.NewDetector`. -/
def NewDetector (options : ScanOptions) : Detector := ⟨options⟩

/-- Nanoseconds in one 24-hour day (`24 * time.Hour`). -/
def nsPerDay : Int := 86400000000000

/-- Embeds `Detector.shouldExclude`: a branch name is excluded when some
pattern glob-matches it without error, or equals it literally. -/
def Detector.shouldExclude (d : Detector) (branchName : String) : Bool :=
  d.options.ExcludePatterns.any fun pattern =>
    (filepathMatch pattern branchName == some true) || (pattern == branchName)

/-- One step of the pull-request bucketing loop of `ClassifyBranch`: the
accumulator holds the merged, closed and open candidates (later matches
overwrite earlier ones). -/
def bucketStep (branchName : String)
    (acc : Option PullRequest × Option PullRequest × Option PullRequest)
    (pr : PullRequest) :
    Option PullRequest × Option PullRequest × Option PullRequest :=
  if pr.Head.Ref = branchName then
    if pr.MergedAt.isSome then (some pr, acc.2.1, acc.2.2)
    else if pr.State = "closed" then (acc.1, some pr, acc.2.2)
    else if pr.State = "open" then (acc.1, acc.2.1, some pr)
    else acc
  else acc

/-- Embeds `Detector.ClassifyBranch`.  `now` is the instant read by
`time.Since`; days since activity is the elapsed nanoseconds divided by
one day, truncated toward zero as Go's float-to-int conversion does. -/
def Detector.ClassifyBranch (d : Detector) (now : Int) (repo : Repository)
    (branch : Branch) (prs : List PullRequest) : Option OrphanedBranch :=
  if d.shouldExclude branch.Name then none
  else if branch.Protected && !d.options.IncludeProtected then none
  else
    let daysSince := Int.tdiv (now - branch.LastCommitDate) nsPerDay
    let buckets := prs.foldl (bucketStep branch.Name) (none, none, none)
    if buckets.2.2.isSome then none
    else
      let orphan : OrphanedBranch :=
        { Repository := repo.FullName
          BranchName := branch.Name
          SHA := branch.SHA
          LastCommitDate := branch.LastCommitDate
          Type' := .stale
          PRNumber := none
          PRTitle := none
          DaysSinceActivity := daysSince
          Protected := branch.Protected }
      match buckets.1 with
      | some pr =>
        some { orphan with Type' := .merged_pr, PRNumber := some pr.Number, PRTitle := some pr.Title }
      | none =>
        match buckets.2.1 with
        | some pr =>
          some { orphan with Type' := .closed_pr, PRNumber := some pr.Number, PRTitle := some pr.Title }
        | none =>
          if daysSince ≥ d.options.StaleDaysThreshold then
            some orphan
          else if d.options.IncludeRecentNoPR then
            some { orphan with Type' := .recent_no_pr }
          else none

/-! ## Scanner (internal/orphans/scanner.go) -/

/-- Embeds the three `github.Client` calls the scanner performs, as a
record of response functions. -/
structure Client where
  ListNamespaceRepositories : String → Except GhError (List Repository × Bool)
  ListBranches : String → String → Except GhError (List Branch)
  ListPullRequests : String → String → String → Except GhError (List PullRequest)

/-- Embeds `orphans.NamespaceScanner`. -/
structure NamespaceScanner where
  client : Client
  options : ScanOptions

/-- Embeds `orphans.NewNamespaceScanner`. -/
def NewNamespaceScanner (client : Client) (options : ScanOptions) : NamespaceScanner :=
  ⟨client, options⟩

/-- Embeds the branch loop of `ScanRepo`: every branch other than the
repository's default branch is classified, and non-nil classifications
are appended to the accumulated orphan list. -/
def classifyLoop (detector : Detector) (now : Int) (repo : Repository)
    (prs : List PullRequest) (acc : List OrphanedBranch) :
    List Branch → List OrphanedBranch
  | [] => acc
  | branch :: rest =>
    if branch.Name = repo.DefaultBranch then
      classifyLoop detector now repo prs acc rest
    else
      match detector.ClassifyBranch now repo branch prs with
      | some orphan => classifyLoop detector now repo prs (acc ++ [orphan]) rest
      | none => classifyLoop detector now repo prs acc rest

/-- Embeds `NamespaceScanner.ScanRepo` for an uncancelled context: list
branches, list all pull requests (either failure is recorded on the
result), then classify every non-default branch. -/
def NamespaceScanner.ScanRepo (s : NamespaceScanner) (now : Int) (repo : Repository) :
    ScanResult :=
  match s.client.ListBranches repo.Owner repo.Name with
  | .error e => { Repository := repo, Orphans := [], DefaultBranch := repo.DefaultBranch, Error := some e }
  | .ok branches =>
    match s.client.ListPullRequests repo.Owner repo.Name "all" with
    | .error e => { Repository := repo, Orphans := [], DefaultBranch := repo.DefaultBranch, Error := some e }
    | .ok prs =>
      let detector := NewDetector s.options
      { Repository := repo
        Orphans := classifyLoop detector now repo prs [] branches
        DefaultBranch := repo.DefaultBranch
        Error := none }

/-- Embeds the aggregation loop of `ScanNamespaceWithProgress` (lines
appending each received `ScanResult` and summing its orphan count); the
argument order of `completed` stands for the channel-arrival order. -/
def aggregateResults (acc : NamespaceScanResult) (completed : List ScanResult) :
    NamespaceScanResult :=
  completed.foldl (fun r scanResult =>
    { r with
      Results := r.Results ++ [scanResult]
      TotalOrphans := r.TotalOrphans + scanResult.Orphans.length }) acc

/-- Embeds `NamespaceScanner.ScanNamespaceWithProgress` for an uncancelled
run: repository listing failure is fatal; otherwise archived repositories
are filtered out and every remaining repository is scanned by `ScanRepo`,
the per-worker completion order being fixed here as spawn order (facts
that must hold for every order are proved against `aggregateResults`
directly). -/
def NamespaceScanner.ScanNamespaceWithProgress (s : NamespaceScanner) (now : Int)
    (ns : String) : Except GhError NamespaceScanResult :=
  match s.client.ListNamespaceRepositories ns with
  | .error e => .error e
  | .ok (repos, isOrg) =>
    let nonArchivedRepos := repos.filter fun r => !r.Archived
    let result : NamespaceScanResult :=
      { Namespace := ns
        IsOrg := isOrg
        Results := []
        TotalRepos := nonArchivedRepos.length
        TotalOrphans := 0 }
    if nonArchivedRepos.length = 0 then .ok result
    else .ok (aggregateResults result (nonArchivedRepos.map (s.ScanRepo now)))

/-- Embeds `NamespaceScanner.ScanNamespace`, which delegates to
`ScanNamespaceWithProgress` with no progress channel. -/
def NamespaceScanner.ScanNamespace (s : NamespaceScanner) (now : Int) (ns : String) :
    Except GhError NamespaceScanResult :=
  s.ScanNamespaceWithProgress now ns

/-! ## Worker-pool transition system

The goroutine pool of `ScanNamespaceWithProgress` admits workers through a
buffered channel of capacity `Concurrency` used as a counting semaphore:
a worker moves from pending to running only when a buffer slot is free
(fewer than `conc` workers running) and releases its slot when it
finishes.  `PoolStep` is that semantics for `n` workers; `PoolReach` are
the states reachable from the initial all-pending state. -/

/-- Phase of one repository worker in the bounded pool. -/
inductive Phase where
  | pending
  | running
  | done
deriving DecidableEq

/-- Number of workers currently holding a semaphore slot. -/
def runningCount (s : List Phase) : Nat :=
  s.countP fun p => decide (p = Phase.running)

/-- One scheduler step of the semaphore-bounded worker pool. -/
inductive PoolStep (conc : Nat) : List Phase → List Phase → Prop where
  | start (s : List Phase) (i : Nat) (hp : s.get? i = some .pending)
      (hc : runningCount s < conc) : PoolStep conc s (s.set i .running)
  | finish (s : List Phase) (i : Nat) (hr : s.get? i = some .running) :
      PoolStep conc s (s.set i .done)

/-- States of the worker pool reachable from `n` pending workers. -/
inductive PoolReach (conc n : Nat) : List Phase → Prop where
  | init : PoolReach conc n (List.replicate n .pending)
  | step {s t : List Phase} : PoolReach conc n s → PoolStep conc s t → PoolReach conc n t

/-! ## Derived notions used to state the claims -/

/-- A pull request that lands in the merged bucket for a branch: head ref
matches and the merged-at timestamp is non-null. -/
def isMergedCand (branchName : String) (pr : PullRequest) : Bool :=
  pr.Head.Ref == branchName && pr.MergedAt.isSome

/-- A pull request that lands in the closed bucket: head ref matches, not
merged, and state is closed. -/
def isClosedCand (branchName : String) (pr : PullRequest) : Bool :=
  pr.Head.Ref == branchName && !pr.MergedAt.isSome && pr.State == "closed"

/-- A pull request that lands in the open bucket: head ref matches, not
merged, and state is open. -/
def isOpenCand (branchName : String) (pr : PullRequest) : Bool :=
  pr.Head.Ref == branchName && !pr.MergedAt.isSome && pr.State == "open"

/-- The record all produced orphans share before the category switch
fills in type and PR data. -/
def baseOrphan (now : Int) (repo : Repository) (branch : Branch) : OrphanedBranch :=
  { Repository := repo.FullName
    BranchName := branch.Name
    SHA := branch.SHA
    LastCommitDate := branch.LastCommitDate
    Type' := .stale
    PRNumber := none
    PRTitle := none
    DaysSinceActivity := Int.tdiv (now - branch.LastCommitDate) nsPerDay
    Protected := branch.Protected }

/-! ## Concrete fixtures used by the witness theorems -/

/-- A plain unarchived repository whose default branch is `main`. -/
def fxRepo : Repository :=
  { Name := "widgets", FullName := "acme/widgets", Owner := "acme",
    Private := false, Archived := false, DefaultBranch := "main" }

/-- An unprotected feature branch last committed at instant 0. -/
def fxBranch : Branch :=
  { Name := "feature-x", SHA := "abc123", Protected := false,
    Ahead := 0, Behind := 0, LastCommitDate := 0 }

/-- The repository default branch itself. -/
def fxBranchMain : Branch :=
  { Name := "main", SHA := "def456", Protected := false,
    Ahead := 0, Behind := 0, LastCommitDate := 0 }

/-- A protected release branch matching the `release/*` default pattern. -/
def fxBranchRelease : Branch :=
  { Name := "release/v1.0", SHA := "rel001", Protected := true,
    Ahead := 0, Behind := 0, LastCommitDate := 0 }

/-- A branch whose recorded last commit lies 36 hours in the future of
instant 0. -/
def fxBranchFuture : Branch :=
  { Name := "future-x", SHA := "fut001", Protected := false,
    Ahead := 0, Behind := 0, LastCommitDate := 129600000000000 }

/-- A merged pull request (number 1) on `feature-x`, merged on day 5. -/
def fxPRMerged : PullRequest :=
  { Number := 1, Title := "Feature PR", State := "closed",
    Head := { Ref := "feature-x", SHA := "abc123", Repo := "acme/widgets" },
    Base := { Ref := "main", SHA := "", Repo := "acme/widgets" },
    MergedAt := some (5 * nsPerDay), ClosedAt := some (5 * nsPerDay) }

/-- A closed unmerged pull request (number 2) on `feature-x`. -/
def fxPRClosed : PullRequest :=
  { Number := 2, Title := "Closed PR", State := "closed",
    Head := { Ref := "feature-x", SHA := "abc123", Repo := "acme/widgets" },
    Base := { Ref := "main", SHA := "", Repo := "acme/widgets" },
    MergedAt := none, ClosedAt := some (6 * nsPerDay) }

/-- A second merged pull request (number 3) on `feature-x`, merged on day
2 — earlier by timestamp than `fxPRMerged`. -/
def fxPRMergedOld : PullRequest :=
  { Number := 3, Title := "Old merged PR", State := "closed",
    Head := { Ref := "feature-x", SHA := "abc123", Repo := "acme/widgets" },
    Base := { Ref := "main", SHA := "", Repo := "acme/widgets" },
    MergedAt := some (2 * nsPerDay), ClosedAt := some (2 * nsPerDay) }

/-- An open pull request (number 4) on `feature-x`. -/
def fxPROpen : PullRequest :=
  { Number := 4, Title := "Open PR", State := "open",
    Head := { Ref := "feature-x", SHA := "abc123", Repo := "acme/widgets" },
    Base := { Ref := "main", SHA := "", Repo := "acme/widgets" },
    MergedAt := none, ClosedAt := none }

/-- A merged pull request (number 5) on the excluded `release/v1.0`. -/
def fxPRMergedRel : PullRequest :=
  { Number := 5, Title := "Release PR", State := "closed",
    Head := { Ref := "release/v1.0", SHA := "rel001", Repo := "acme/widgets" },
    Base := { Ref := "main", SHA := "", Repo := "acme/widgets" },
    MergedAt := some (1 * nsPerDay), ClosedAt := some (1 * nsPerDay) }

/-- A merged pull request (number 6) on `future-x`. -/
def fxPRMergedFut : PullRequest :=
  { Number := 6, Title := "Future PR", State := "closed",
    Head := { Ref := "future-x", SHA := "fut001", Repo := "acme/widgets" },
    Base := { Ref := "main", SHA := "", Repo := "acme/widgets" },
    MergedAt := some 0, ClosedAt := some 0 }

/-- A repository whose default branch is `trunk`. -/
def fxRepoTrunk : Repository :=
  { Name := "engine", FullName := "acme/engine", Owner := "acme",
    Private := false, Archived := false, DefaultBranch := "trunk" }

/-- An unprotected branch named exactly like `fxRepoTrunk`'s default
branch. -/
def fxBranchTrunk : Branch :=
  { Name := "trunk", SHA := "trk001", Protected := false,
    Ahead := 0, Behind := 0, LastCommitDate := 0 }

/-- A second unarchived repository whose listings fail. -/
def fxRepoBeta : Repository :=
  { Name := "beta", FullName := "acme/beta", Owner := "acme",
    Private := false, Archived := false, DefaultBranch := "main" }

/-- An archived repository, filtered out of every scan. -/
def fxRepoArchived : Repository :=
  { Name := "attic", FullName := "acme/attic", Owner := "acme",
    Private := false, Archived := true, DefaultBranch := "main" }

/-- A client for which `acme/widgets` lists one stale feature branch plus
the default branch, `acme/beta` fails to list branches, and the
namespace holds the two of them plus an archived repository. -/
def fxClient : Client :=
  { ListNamespaceRepositories := fun _ => .ok ([fxRepo, fxRepoBeta, fxRepoArchived], true)
    ListBranches := fun _ repoName =>
      if repoName = "widgets" then .ok [fxBranchMain, fxBranch] else .error "boom"
    ListPullRequests := fun _ _ _ => .ok [] }

/-- The namespace scanner over `fxClient` with default options. -/
def fxScanner : NamespaceScanner :=
  NewNamespaceScanner fxClient DefaultScanOptions

/-- The result `fxScanner` yields on its namespace ten days after the
fixture commits. -/
def fxScanOutput : NamespaceScanResult :=
  aggregateResults
    { Namespace := "acme", IsOrg := true, Results := [],
      TotalRepos := 2, TotalOrphans := 0 }
    ([fxRepo, fxRepoBeta].map (fxScanner.ScanRepo (10 * nsPerDay)))

theorem bucketStep_fst (bn : String) (acc : Option PullRequest × Option PullRequest × Option PullRequest)
    (pr : PullRequest) :
    (bucketStep bn acc pr).1 = if isMergedCand bn pr then some pr else acc.1 := by
  by_cases h1 : pr.Head.Ref = bn <;>
    by_cases h2 : pr.MergedAt.isSome <;>
      by_cases h3 : pr.State = "closed" <;>
        by_cases h4 : pr.State = "open" <;>
          simp_all [bucketStep, isMergedCand]

theorem bucketStep_closed (bn : String) (acc : Option PullRequest × Option PullRequest × Option PullRequest)
    (pr : PullRequest) :
    (bucketStep bn acc pr).2.1 = if isClosedCand bn pr then some pr else acc.2.1 := by
  by_cases h1 : pr.Head.Ref = bn <;>
    by_cases h2 : pr.MergedAt.isSome <;>
      by_cases h3 : pr.State = "closed" <;>
        by_cases h4 : pr.State = "open" <;>
          simp_all [bucketStep, isClosedCand]

theorem bucketStep_open (bn : String) (acc : Option PullRequest × Option PullRequest × Option PullRequest)
    (pr : PullRequest) :
    (bucketStep bn acc pr).2.2 = if isOpenCand bn pr then some pr else acc.2.2 := by
  by_cases h1 : pr.Head.Ref = bn <;>
    by_cases h2 : pr.MergedAt.isSome <;>
      by_cases h3 : pr.State = "closed" <;>
        by_cases h4 : pr.State = "open" <;>
          simp_all [bucketStep, isOpenCand]

theorem bucketFold_fst (bn : String) (prs : List PullRequest) :
    (prs.foldl (bucketStep bn) (none, none, none)).1 =
      (prs.filter (isMergedCand bn)).getLast? := by
  induction prs using List.reverseRecOn with
  | nil => rfl
  | append_singleton l pr ih =>
    rw [List.foldl_append, List.filter_append]
    simp only [List.foldl_cons, List.foldl_nil, List.filter]
    rw [bucketStep_fst]
    by_cases h : isMergedCand bn pr <;> simp [h, ih, List.getLast?_append]

theorem bucketFold_closed (bn : String) (prs : List PullRequest) :
    (prs.foldl (bucketStep bn) (none, none, none)).2.1 =
      (prs.filter (isClosedCand bn)).getLast? := by
  induction prs using List.reverseRecOn with
  | nil => rfl
  | append_singleton l pr ih =>
    rw [List.foldl_append, List.filter_append]
    simp only [List.foldl_cons, List.foldl_nil, List.filter]
    rw [bucketStep_closed]
    by_cases h : isClosedCand bn pr <;> simp [h, ih, List.getLast?_append]

theorem bucketFold_open (bn : String) (prs : List PullRequest) :
    (prs.foldl (bucketStep bn) (none, none, none)).2.2 =
      (prs.filter (isOpenCand bn)).getLast? := by
  induction prs using List.reverseRecOn with
  | nil => rfl
  | append_singleton l pr ih =>
    rw [List.foldl_append, List.filter_append]
    simp only [List.foldl_cons, List.foldl_nil, List.filter]
    rw [bucketStep_open]
    by_cases h : isOpenCand bn pr <;> simp [h, ih, List.getLast?_append]

/-- Closed form of `ClassifyBranch`: the three iteration buckets are the
last matching pull requests of the corresponding filters. -/
theorem ClassifyBranch_eq (d : Detector) (now : Int) (repo : Repository)
    (branch : Branch) (prs : List PullRequest) :
    d.ClassifyBranch now repo branch prs =
      if d.shouldExclude branch.Name then none
      else if branch.Protected && !d.options.IncludeProtected then none
      else if ((prs.filter (isOpenCand branch.Name)).getLast?).isSome then none
      else
        match (prs.filter (isMergedCand branch.Name)).getLast? with
        | some pr =>
          some { baseOrphan now repo branch with
                  Type' := .merged_pr, PRNumber := some pr.Number, PRTitle := some pr.Title }
        | none =>
          match (prs.filter (isClosedCand branch.Name)).getLast? with
          | some pr =>
            some { baseOrphan now repo branch with
                    Type' := .closed_pr, PRNumber := some pr.Number, PRTitle := some pr.Title }
          | none =>
            if Int.tdiv (now - branch.LastCommitDate) nsPerDay ≥ d.options.StaleDaysThreshold then
              some (baseOrphan now repo branch)
            else if d.options.IncludeRecentNoPR then
              some { baseOrphan now repo branch with Type' := .recent_no_pr }
            else none := by
  unfold Detector.ClassifyBranch
  simp only [bucketFold_fst, bucketFold_closed, bucketFold_open, baseOrphan]

/-- Truncating and flooring division agree on nonnegative operands. -/
theorem tdiv_eq_fdiv_of_nonneg (a b : Int) (ha : 0 ≤ a) (hb : 0 ≤ b) :
    a.tdiv b = a.fdiv b := by
  obtain ⟨m, rfl⟩ := Int.eq_ofNat_of_zero_le ha
  obtain ⟨k, rfl⟩ := Int.eq_ofNat_of_zero_le hb
  cases m with
  | zero => simp
  | succ m => rfl

/-- Every orphan produced by `ClassifyBranch` carries the repository full
name, the branch name, and the truncated day count. -/
theorem ClassifyBranch_fields (d : Detector) (now : Int) (repo : Repository)
    (branch : Branch) (prs : List PullRequest) (o : OrphanedBranch)
    (h : d.ClassifyBranch now repo branch prs = some o) :
    o.Repository = repo.FullName ∧ o.BranchName = branch.Name ∧
      o.DaysSinceActivity = Int.tdiv (now - branch.LastCommitDate) nsPerDay := by
  rw [ClassifyBranch_eq] at h
  split at h
  · exact absurd h (by simp)
  split at h
  · exact absurd h (by simp)
  split at h
  · exact absurd h (by simp)
  split at h
  · obtain rfl := Option.some.inj h
    simp [baseOrphan]
  split at h
  · obtain rfl := Option.some.inj h
    simp [baseOrphan]
  split at h
  · obtain rfl := Option.some.inj h
    simp [baseOrphan]
  split at h
  · obtain rfl := Option.some.inj h
    simp [baseOrphan]
  · exact absurd h (by simp)

/-- Every orphan accumulated by the `ScanRepo` branch loop either was in
the accumulator already or is the classification of a non-default
branch from the list. -/
theorem classifyLoop_mem (detector : Detector) (now : Int) (repo : Repository)
    (prs : List PullRequest) (branches : List Branch) (acc : List OrphanedBranch)
    (o : OrphanedBranch) (h : o ∈ classifyLoop detector now repo prs acc branches) :
    o ∈ acc ∨ ∃ b ∈ branches, b.Name ≠ repo.DefaultBranch ∧
      detector.ClassifyBranch now repo b prs = some o := by
  induction branches generalizing acc with
  | nil => exact Or.inl h
  | cons b rest ih =>
    rw [classifyLoop] at h
    split at h
    · rcases ih _ h with hacc | ⟨b', hb', hname, hcl⟩
      · exact Or.inl hacc
      · exact Or.inr ⟨b', List.mem_cons_of_mem _ hb', hname, hcl⟩
    · rename_i hdef
      split at h
      · rename_i orphan hcl
        rcases ih _ h with hacc | ⟨b', hb', hname, hcl'⟩
        · rcases List.mem_append.mp hacc with hl | hr
          · exact Or.inl hl
          · obtain rfl := List.mem_singleton.mp hr
            exact Or.inr ⟨b, List.mem_cons_self _ _, hdef, hcl⟩
        · exact Or.inr ⟨b', List.mem_cons_of_mem _ hb', hname, hcl'⟩
      · rcases ih _ h with hacc | ⟨b', hb', hname, hcl'⟩
        · exact Or.inl hacc
        · exact Or.inr ⟨b', List.mem_cons_of_mem _ hb', hname, hcl'⟩

/-- The aggregation loop appends the completed results in arrival order. -/
theorem aggregateResults_Results (acc : NamespaceScanResult) (completed : List ScanResult) :
    (aggregateResults acc completed).Results = acc.Results ++ completed := by
  induction completed generalizing acc with
  | nil => simp [aggregateResults]
  | cons sr rest ih =>
    have hstep : aggregateResults acc (sr :: rest) =
        aggregateResults
          { acc with
            Results := acc.Results ++ [sr]
            TotalOrphans := acc.TotalOrphans + sr.Orphans.length } rest := rfl
    rw [hstep, ih]
    simp

/-- The aggregation loop adds exactly the orphan counts of the completed
results, whatever their arrival order. -/
theorem aggregateResults_TotalOrphans (acc : NamespaceScanResult) (completed : List ScanResult) :
    (aggregateResults acc completed).TotalOrphans =
      acc.TotalOrphans + (completed.map fun sr => sr.Orphans.length).sum := by
  induction completed generalizing acc with
  | nil => simp [aggregateResults]
  | cons sr rest ih =>
    have hstep : aggregateResults acc (sr :: rest) =
        aggregateResults
          { acc with
            Results := acc.Results ++ [sr]
            TotalOrphans := acc.TotalOrphans + sr.Orphans.length } rest := rfl
    rw [hstep, ih]
    simp [Nat.add_assoc]

/-- The aggregation loop leaves the namespace name, organization flag and
repository count untouched. -/
theorem aggregateResults_meta (acc : NamespaceScanResult) (completed : List ScanResult) :
    (aggregateResults acc completed).Namespace = acc.Namespace ∧
      (aggregateResults acc completed).IsOrg = acc.IsOrg ∧
      (aggregateResults acc completed).TotalRepos = acc.TotalRepos := by
  induction completed generalizing acc with
  | nil => simp [aggregateResults]
  | cons sr rest ih =>
    have hstep : aggregateResults acc (sr :: rest) =
        aggregateResults
          { acc with
            Results := acc.Results ++ [sr]
            TotalOrphans := acc.TotalOrphans + sr.Orphans.length } rest := rfl
    rw [hstep]
    simpa using ih _

/-- Length of the `AllOrphans` fold, for an arbitrary initial list. -/
theorem allOrphans_foldl_length (results : List ScanResult) (init : List OrphanedBranch) :
    (results.foldl (fun all result => all ++ result.Orphans) init).length =
      init.length + (results.map fun sr => sr.Orphans.length).sum := by
  induction results generalizing init with
  | nil => simp
  | cons sr rest ih =>
    simp only [List.foldl_cons, List.map_cons, List.sum_cons]
    rw [ih]
    simp [Nat.add_assoc]

/-- Setting an element shifts a `countP` by the predicate values of the
old and new elements. -/
theorem countP_set (s : List Phase) (i : Nat) (a b : Phase) (p : Phase → Bool)
    (h : s.get? i = some a) :
    (s.set i b).countP p + (if p a then 1 else 0) =
      s.countP p + (if p b then 1 else 0) := by
  induction s generalizing i with
  | nil => simp at h
  | cons c cs ih =>
    cases i with
    | zero =>
      simp only [List.get?_cons_zero, Option.some.injEq] at h
      simp only [List.set_cons_zero, List.countP_cons, h]
      by_cases hpa : p a <;> by_cases hpb : p b <;> simp [hpa, hpb]
    | succ i =>
      simp only [List.get?_cons_succ] at h
      simp only [List.set_cons_succ, List.countP_cons]
      have hrec := ih i h
      by_cases hpc : p c <;> simp [hpc] <;> omega

/-- No worker of the initial pool state holds a slot. -/
theorem runningCount_replicate_pending (m : Nat) :
    runningCount (List.replicate m Phase.pending) = 0 := by
  induction m with
  | zero => rfl
  | succ m ih =>
    rw [List.replicate_succ]
    simp only [runningCount, List.countP_cons] at ih ⊢
    simp [ih]

/-- Reachable pool states keep one entry per worker. -/
theorem poolReach_length (conc n : Nat) (s : List Phase) (h : PoolReach conc n s) :
    s.length = n := by
  induction h with
  | init => simp
  | step _ hs ih =>
    cases hs with
    | start i hp hc => simpa using ih
    | finish i hr => simpa using ih

/-- In every reachable pool state at most `conc` workers hold a slot. -/
theorem poolReach_runningCount_le (conc n : Nat) (s : List Phase) (h : PoolReach conc n s) :
    runningCount s ≤ conc := by
  induction h with
  | init => simp [runningCount_replicate_pending]
  | step hprev hs ih =>
    rename_i s' t'
    cases hs with
    | start i hp hc =>
      have hcs := countP_set s' i Phase.pending Phase.running
        (fun p => decide (p = Phase.running)) hp
      simp only [runningCount] at ih hc ⊢
      simp at hcs
      omega
    | finish i hr =>
      have hcs := countP_set s' i Phase.running Phase.done
        (fun p => decide (p = Phase.running)) hr
      simp only [runningCount] at ih ⊢
      simp at hcs
      omega

/-- A reachable pool state from which no step is enabled has every worker
done, provided the pool admits at least one worker at a time. -/
theorem poolReach_terminal (conc n : Nat) (h0 : 0 < conc) (s : List Phase)
    (hreach : PoolReach conc n s) (hterm : ∀ t, ¬ PoolStep conc s t) :
    s = List.replicate n Phase.done := by
  have hlen := poolReach_length conc n s hreach
  refine List.eq_replicate.mpr ⟨hlen, ?_⟩
  intro b hb
  obtain ⟨⟨i, hi⟩, hget⟩ := List.mem_iff_get.mp hb
  have hgi : s.get? i = some b := by
    rw [List.get?_eq_get hi, hget]
  cases b with
  | done => rfl
  | running => exact absurd (PoolStep.finish s i hgi) (hterm _)
  | pending =>
    by_cases hc : runningCount s < conc
    · exact absurd (PoolStep.start s i hgi hc) (hterm _)
    · push_neg at hc
      have hpos : 0 < runningCount s := lt_of_lt_of_le h0 hc
      unfold runningCount at hpos
      obtain ⟨a, ha, hpa⟩ := List.countP_pos.mp hpos
      have haR : a = Phase.running := of_decide_eq_true hpa
      subst haR
      obtain ⟨⟨j, hj⟩, hgetj⟩ := List.mem_iff_get.mp ha
      have hgj : s.get? j = some Phase.running := by
        rw [List.get?_eq_get hj, hgetj]
      exact absurd (PoolStep.finish s j hgj) (hterm _)

/-! ## Claims -/

/-- C1: for every branch that passes the exclusion and protection checks
and has no matching open pull request, `ClassifyBranch` picks exactly one
category by fixed priority: the last matching merged pull request (with
its number and title) beats the last matching closed one, which beats
staleness at `StaleDaysThreshold`, which beats `IncludeRecentNoPR`,
which beats none; so merged plus closed yields `merged_pr`. -/
theorem C1_classification_priority (d : Detector) (now : Int) (repo : Repository)
    (branch : Branch) (prs : List PullRequest)
    (hex : d.shouldExclude branch.Name = false)
    (hprot : (branch.Protected && !d.options.IncludeProtected) = false)
    (hopen : ∀ pr ∈ prs, ¬(pr.Head.Ref = branch.Name ∧ pr.State = "open" ∧ pr.MergedAt = none)) :
    d.ClassifyBranch now repo branch prs =
      match (prs.filter (isMergedCand branch.Name)).getLast? with
      | some pr =>
        some { baseOrphan now repo branch with
                Type' := .merged_pr, PRNumber := some pr.Number, PRTitle := some pr.Title }
      | none =>
        match (prs.filter (isClosedCand branch.Name)).getLast? with
        | some pr =>
          some { baseOrphan now repo branch with
                  Type' := .closed_pr, PRNumber := some pr.Number, PRTitle := some pr.Title }
        | none =>
          if Int.tdiv (now - branch.LastCommitDate) nsPerDay ≥ d.options.StaleDaysThreshold then
            some (baseOrphan now repo branch)
          else if d.options.IncludeRecentNoPR then
            some { baseOrphan now repo branch with Type' := .recent_no_pr }
          else none := by
  have hfil : prs.filter (isOpenCand branch.Name) = [] := by
    rw [List.filter_eq_nil]
    intro pr hpr
    intro hc
    apply hopen pr hpr
    simp only [isOpenCand, Bool.and_eq_true, beq_iff_eq] at hc
    refine ⟨hc.1.1, hc.2, ?_⟩
    simpa using hc.1.2
  rw [ClassifyBranch_eq, hex, hprot, hfil]
  simp

/-- Witness for C1 at a branch with both a matching merged and a matching
closed pull request: the result is `merged_pr` with the merged PR's
number and title. -/
theorem C1_witness :
    (NewDetector DefaultScanOptions).shouldExclude fxBranch.Name = false ∧
    (fxBranch.Protected && !(NewDetector DefaultScanOptions).options.IncludeProtected) = false ∧
    (∀ pr ∈ [fxPRMerged, fxPRClosed],
      ¬(pr.Head.Ref = fxBranch.Name ∧ pr.State = "open" ∧ pr.MergedAt = none)) ∧
    (NewDetector DefaultScanOptions).ClassifyBranch (10 * nsPerDay) fxRepo fxBranch
        [fxPRMerged, fxPRClosed] =
      some { baseOrphan (10 * nsPerDay) fxRepo fxBranch with
              Type' := .merged_pr, PRNumber := some 1, PRTitle := some "Feature PR" } :=
  ⟨by decide, by decide, by decide,
    (C1_classification_priority _ _ _ _ _ (by decide) (by decide) (by decide)).trans (by decide)⟩

/-- C2: any matching open (and unmerged) pull request vetoes
classification: `ClassifyBranch` returns none, even when merged or
closed pull requests also match the branch. -/
theorem C2_open_pr_veto (d : Detector) (now : Int) (repo : Repository) (branch : Branch)
    (prs : List PullRequest) (pr : PullRequest) (hmem : pr ∈ prs)
    (href : pr.Head.Ref = branch.Name) (hstate : pr.State = "open")
    (hmerged : pr.MergedAt = none) :
    d.ClassifyBranch now repo branch prs = none := by
  have hcand : isOpenCand branch.Name pr = true := by
    simp [isOpenCand, href, hstate, hmerged]
  have hsome : ((prs.filter (isOpenCand branch.Name)).getLast?).isSome = true := by
    rw [List.getLast?_isSome]
    intro hnil
    have hfalse := List.filter_eq_nil.mp hnil pr hmem
    simp [hcand] at hfalse
  rw [ClassifyBranch_eq]
  split
  · rfl
  · split
    · rfl
    · simp [hsome]

/-- Witness for C2: the open pull request vetoes `feature-x` although a
merged pull request also matches it. -/
theorem C2_witness :
    fxPROpen ∈ [fxPRMerged, fxPROpen] ∧
    fxPROpen.Head.Ref = fxBranch.Name ∧
    fxPROpen.State = "open" ∧
    fxPROpen.MergedAt = none ∧
    (NewDetector DefaultScanOptions).ClassifyBranch (10 * nsPerDay) fxRepo fxBranch
      [fxPRMerged, fxPROpen] = none :=
  ⟨by decide, by decide, by decide, by decide,
    C2_open_pr_veto _ _ _ _ _ fxPROpen (by decide) (by decide) (by decide) (by decide)⟩

/-- C3: a branch whose name equals a pattern of `ExcludePatterns` or
glob-matches one is never classified, regardless of pull-request state,
protection, or staleness (the exclusion check runs before every other
check, so no other signal can override it). -/
theorem C3_exclusion_first (d : Detector) (now : Int) (repo : Repository) (branch : Branch)
    (prs : List PullRequest) (p : String) (hp : p ∈ d.options.ExcludePatterns)
    (hm : branch.Name = p ∨ filepathMatch p branch.Name = some true) :
    d.ClassifyBranch now repo branch prs = none := by
  have hex : d.shouldExclude branch.Name = true := by
    unfold Detector.shouldExclude
    rw [List.any_eq_true]
    refine ⟨p, hp, ?_⟩
    rcases hm with h | h
    · subst h
      simp
    · simp [h]
  rw [ClassifyBranch_eq, hex]
  simp

/-- Witness for C3: the protected, 400-days-stale `release/v1.0` with a
matching merged pull request is still excluded by the `release/*`
pattern. -/
theorem C3_witness :
    "release/*" ∈ DefaultScanOptions.ExcludePatterns ∧
    (fxBranchRelease.Name = "release/*" ∨
      filepathMatch "release/*" fxBranchRelease.Name = some true) ∧
    (NewDetector DefaultScanOptions).ClassifyBranch (400 * nsPerDay) fxRepo fxBranchRelease
      [fxPRMergedRel] = none :=
  ⟨by decide, by decide,
    C3_exclusion_first _ _ _ _ _ "release/*" (by decide) (Or.inr (by decide))⟩

/-- C4: when several pull requests fall into the same bucket for a
branch, the PR number and title attached to the produced orphan are the
ones of the last matching pull request in the iteration order of the
input list (for the merged bucket, and for the closed bucket when the
merged bucket is empty). -/
theorem C4_last_match_wins (d : Detector) (now : Int) (repo : Repository) (branch : Branch)
    (prs : List PullRequest)
    (hex : d.shouldExclude branch.Name = false)
    (hprot : (branch.Protected && !d.options.IncludeProtected) = false)
    (hopen : prs.filter (isOpenCand branch.Name) = []) :
    (∀ pr, (prs.filter (isMergedCand branch.Name)).getLast? = some pr →
      ∃ o, d.ClassifyBranch now repo branch prs = some o ∧
        o.PRNumber = some pr.Number ∧ o.PRTitle = some pr.Title) ∧
    (prs.filter (isMergedCand branch.Name) = [] →
      ∀ pr, (prs.filter (isClosedCand branch.Name)).getLast? = some pr →
        ∃ o, d.ClassifyBranch now repo branch prs = some o ∧
          o.PRNumber = some pr.Number ∧ o.PRTitle = some pr.Title) := by
  rw [ClassifyBranch_eq, hex, hprot, hopen]
  constructor
  · intro pr hlast
    rw [hlast]
    exact ⟨_, rfl, rfl, rfl⟩
  · intro hmnil pr hlast
    rw [hmnil, hlast]
    exact ⟨_, rfl, rfl, rfl⟩

/-- Witness for C4: two merged pull requests match `feature-x`; the one
attached is number 3, the last in iteration order, although number 1 has
the more recent merged-at timestamp. -/
theorem C4_witness :
    (NewDetector DefaultScanOptions).shouldExclude fxBranch.Name = false ∧
    (fxBranch.Protected && !(NewDetector DefaultScanOptions).options.IncludeProtected) = false ∧
    [fxPRMerged, fxPRMergedOld].filter (isOpenCand fxBranch.Name) = [] ∧
    ([fxPRMerged, fxPRMergedOld].filter (isMergedCand fxBranch.Name)).getLast? =
      some fxPRMergedOld ∧
    fxPRMerged.MergedAt = some (5 * nsPerDay) ∧
    fxPRMergedOld.MergedAt = some (2 * nsPerDay) ∧
    (∃ o, (NewDetector DefaultScanOptions).ClassifyBranch (10 * nsPerDay) fxRepo fxBranch
        [fxPRMerged, fxPRMergedOld] = some o ∧
      o.PRNumber = some fxPRMergedOld.Number ∧ o.PRTitle = some fxPRMergedOld.Title) :=
  ⟨by decide, by decide, by decide, by decide, by decide, by decide,
    (C4_last_match_wins _ _ _ _ _ (by decide) (by decide) (by decide)).1 fxPRMergedOld (by decide)⟩

/-- C5 counterexample: Go converts `Hours()/24` to `int` by truncation
toward zero, not by flooring; a produced orphan whose recorded last
commit lies 36 hours after the evaluation instant carries
`DaysSinceActivity = -1`, while the floor of the elapsed-hours quotient
is `-2`. -/
theorem C5_counterexample :
    ((NewDetector DefaultScanOptions).ClassifyBranch 0 fxRepo fxBranchFuture
        [fxPRMergedFut]).map OrphanedBranch.DaysSinceActivity = some (-1) ∧
    Int.fdiv (0 - fxBranchFuture.LastCommitDate) nsPerDay = -2 ∧
    ((-1 : Int) = -2 → False) := by decide

/-- C5 (amended): `DaysSinceActivity` on every produced orphan is the
elapsed nanoseconds divided by one 24-hour day truncated toward zero,
which agrees with the floor of elapsed-hours/24 whenever the last commit
does not postdate the evaluation instant; and with threshold 7, no
matching pull request and a last commit exactly 7 times 24 hours before
the evaluation instant, `ClassifyBranch` returns the stale orphan. -/
theorem C5_daysSince_amended :
    (∀ (d : Detector) (now : Int) (repo : Repository) (branch : Branch)
        (prs : List PullRequest) (o : OrphanedBranch),
        d.ClassifyBranch now repo branch prs = some o →
        o.DaysSinceActivity = Int.tdiv (now - branch.LastCommitDate) nsPerDay ∧
        (branch.LastCommitDate ≤ now →
          o.DaysSinceActivity = Int.fdiv (now - branch.LastCommitDate) nsPerDay)) ∧
    (∀ (d : Detector) (now : Int) (repo : Repository) (branch : Branch)
        (prs : List PullRequest),
        d.options.StaleDaysThreshold = 7 →
        d.shouldExclude branch.Name = false →
        (branch.Protected && !d.options.IncludeProtected) = false →
        (∀ pr ∈ prs, pr.Head.Ref ≠ branch.Name) →
        now - branch.LastCommitDate = 7 * nsPerDay →
        d.ClassifyBranch now repo branch prs = some (baseOrphan now repo branch)) := by
  constructor
  · intro d now repo branch prs o h
    have hdays := (ClassifyBranch_fields d now repo branch prs o h).2.2
    refine ⟨hdays, fun hle => ?_⟩
    rw [hdays]
    exact tdiv_eq_fdiv_of_nonneg _ _ (Int.sub_nonneg.mpr hle) (by decide)
  · intro d now repo branch prs hth hex hprot hnopr helapsed
    have hfm : prs.filter (isMergedCand branch.Name) = [] := by
      rw [List.filter_eq_nil]
      intro pr hpr hc
      simp only [isMergedCand, Bool.and_eq_true, beq_iff_eq] at hc
      exact hnopr pr hpr hc.1
    have hfc : prs.filter (isClosedCand branch.Name) = [] := by
      rw [List.filter_eq_nil]
      intro pr hpr hc
      simp only [isClosedCand, Bool.and_eq_true, beq_iff_eq] at hc
      exact hnopr pr hpr hc.1.1
    have hfo : prs.filter (isOpenCand branch.Name) = [] := by
      rw [List.filter_eq_nil]
      intro pr hpr hc
      simp only [isOpenCand, Bool.and_eq_true, beq_iff_eq] at hc
      exact hnopr pr hpr hc.1.1
    rw [ClassifyBranch_eq, hex, hprot, hfm, hfc, hfo, helapsed, hth]
    have h7 : Int.tdiv (7 * nsPerDay) nsPerDay = 7 := by decide
    simp [h7]

/-- Witness for C5 (amended): the 7-day boundary produces the stale
orphan, whose day count also equals the floored quotient. -/
theorem C5_witness :
    ((NewDetector DefaultScanOptions).ClassifyBranch (7 * nsPerDay) fxRepo fxBranch [] =
      some (baseOrphan (7 * nsPerDay) fxRepo fxBranch)) ∧
    (baseOrphan (7 * nsPerDay) fxRepo fxBranch).DaysSinceActivity =
      Int.fdiv (7 * nsPerDay - fxBranch.LastCommitDate) nsPerDay := by
  have h1 := C5_daysSince_amended.2 (NewDetector DefaultScanOptions) (7 * nsPerDay)
    fxRepo fxBranch [] (by decide) (by decide) (by decide) (by decide) (by decide)
  exact ⟨h1, (C5_daysSince_amended.1 _ _ _ _ _ _ h1).2 (by decide)⟩

/-- C9 counterexample: two calls of `ClassifyBranch` with identical
repository, branch and pull-request list but different wall-clock
instants return different results, so the result does depend on
something outside the three arguments — the clock read by `time.Since`. -/
theorem C9_counterexample :
    (NewDetector DefaultScanOptions).ClassifyBranch (6 * nsPerDay) fxRepo fxBranch [] = none ∧
    (NewDetector DefaultScanOptions).ClassifyBranch (8 * nsPerDay) fxRepo fxBranch [] =
      some (baseOrphan (8 * nsPerDay) fxRepo fxBranch) := by decide

/-- C9 (amended): `ClassifyBranch` is deterministic in its three
arguments together with the evaluation instant — equal inputs at the
same instant give equal results — and it reads the repository only
through its full name. -/
theorem C9_deterministic_amended :
    (∀ (d : Detector) (now : Int) (r1 r2 : Repository) (b1 b2 : Branch)
        (p1 p2 : List PullRequest), r1 = r2 → b1 = b2 → p1 = p2 →
        d.ClassifyBranch now r1 b1 p1 = d.ClassifyBranch now r2 b2 p2) ∧
    (∀ (d : Detector) (now : Int) (r1 r2 : Repository) (b : Branch)
        (prs : List PullRequest), r1.FullName = r2.FullName →
        d.ClassifyBranch now r1 b prs = d.ClassifyBranch now r2 b prs) := by
  constructor
  · rintro d now r1 r2 b1 b2 p1 p2 rfl rfl rfl
    rfl
  · intro d now r1 r2 b prs h
    rw [ClassifyBranch_eq, ClassifyBranch_eq]
    have hbase : baseOrphan now r1 b = baseOrphan now r2 b := by
      simp [baseOrphan, h]
    rw [hbase]

/-- Witness for C9 (amended) at one concrete argument tuple. -/
theorem C9_witness :
    (fxRepo = fxRepo ∧ fxBranch = fxBranch ∧
      ([fxPRMerged] : List PullRequest) = [fxPRMerged]) ∧
    (NewDetector DefaultScanOptions).ClassifyBranch 0 fxRepo fxBranch [fxPRMerged] =
      (NewDetector DefaultScanOptions).ClassifyBranch 0 fxRepo fxBranch [fxPRMerged] :=
  ⟨⟨rfl, rfl, rfl⟩,
    C9_deterministic_amended.1 (NewDetector DefaultScanOptions) 0 _ _ _ _ _ _ rfl rfl rfl⟩

/-- C10: the default branch is skipped by `ScanRepo` alone —
`ClassifyBranch` never reads `repo.DefaultBranch`, no orphan reported by
`ScanRepo` is the default branch, and the standalone classifier does
return a stale orphan for a branch named like its repository's default
branch. -/
theorem C10_default_branch_skip :
    (∀ (d : Detector) (now : Int) (repo : Repository) (db : String) (branch : Branch)
        (prs : List PullRequest),
        d.ClassifyBranch now repo branch prs =
          d.ClassifyBranch now { repo with DefaultBranch := db } branch prs) ∧
    (∀ (s : NamespaceScanner) (now : Int) (repo : Repository) (o : OrphanedBranch),
        o ∈ (s.ScanRepo now repo).Orphans → o.BranchName ≠ repo.DefaultBranch) ∧
    ((NewDetector DefaultScanOptions).ClassifyBranch (30 * nsPerDay) fxRepoTrunk
        fxBranchTrunk [] = some (baseOrphan (30 * nsPerDay) fxRepoTrunk fxBranchTrunk) ∧
      fxBranchTrunk.Name = fxRepoTrunk.DefaultBranch ∧
      (baseOrphan (30 * nsPerDay) fxRepoTrunk fxBranchTrunk).Type' = OrphanType.stale) := by
  refine ⟨?_, ?_, by decide⟩
  · intro d now repo db branch prs
    rw [ClassifyBranch_eq, ClassifyBranch_eq]
    rfl
  · intro s now repo o ho
    unfold NamespaceScanner.ScanRepo at ho
    split at ho
    · simp at ho
    · split at ho
      · simp at ho
      · simp only [] at ho
        rcases classifyLoop_mem _ _ _ _ _ _ _ ho with h | ⟨b, hb, hname, hcl⟩
        · simp at h
        · rw [(ClassifyBranch_fields _ _ _ _ _ _ hcl).2.1]
          exact hname

/-- Witness for C10 at the fixture scanner: the stale `feature-x` orphan
reported for `acme/widgets` is not the default branch. -/
theorem C10_witness :
    baseOrphan (10 * nsPerDay) fxRepo fxBranch ∈
      (fxScanner.ScanRepo (10 * nsPerDay) fxRepo).Orphans ∧
    (baseOrphan (10 * nsPerDay) fxRepo fxBranch).BranchName ≠ fxRepo.DefaultBranch :=
  ⟨by decide, C10_default_branch_skip.2.1 fxScanner (10 * nsPerDay) fxRepo _ (by decide)⟩

/-- C6: errors split into two tiers — a failing repository listing makes
`ScanNamespaceWithProgress` return that error and no result; a failing
branch or pull-request listing makes `ScanRepo` return a result with the
error set and no orphans, and the namespace scan still carries every
repository's own independent `ScanRepo` outcome. -/
theorem C6_error_tiers :
    (∀ (s : NamespaceScanner) (now : Int) (ns : String) (e : GhError),
        s.client.ListNamespaceRepositories ns = .error e →
        s.ScanNamespaceWithProgress now ns = .error e) ∧
    (∀ (s : NamespaceScanner) (now : Int) (repo : Repository) (e : GhError),
        s.client.ListBranches repo.Owner repo.Name = .error e →
        (s.ScanRepo now repo).Error = some e ∧ (s.ScanRepo now repo).Orphans = []) ∧
    (∀ (s : NamespaceScanner) (now : Int) (repo : Repository) (branches : List Branch)
        (e : GhError),
        s.client.ListBranches repo.Owner repo.Name = .ok branches →
        s.client.ListPullRequests repo.Owner repo.Name "all" = .error e →
        (s.ScanRepo now repo).Error = some e ∧ (s.ScanRepo now repo).Orphans = []) ∧
    (∀ (s : NamespaceScanner) (now : Int) (ns : String) (repos : List Repository)
        (isOrg : Bool),
        s.client.ListNamespaceRepositories ns = .ok (repos, isOrg) →
        ∃ res, s.ScanNamespaceWithProgress now ns = .ok res ∧
          res.Results = (repos.filter fun r => !r.Archived).map (s.ScanRepo now)) := by
  refine ⟨?_, ?_, ?_, ?_⟩
  · intro s now ns e h
    simp only [NamespaceScanner.ScanNamespaceWithProgress, h]
  · intro s now repo e h
    constructor <;> simp [NamespaceScanner.ScanRepo, h]
  · intro s now repo branches e hb hp
    constructor <;> simp [NamespaceScanner.ScanRepo, hb, hp]
  · intro s now ns repos isOrg h
    simp only [NamespaceScanner.ScanNamespaceWithProgress, h]
    by_cases hnil : (repos.filter fun r => !r.Archived).length = 0
    · obtain hempty := List.length_eq_zero.mp hnil
      rw [if_pos hnil]
      exact ⟨_, rfl, by simp [hempty]⟩
    · rw [if_neg hnil]
      exact ⟨_, rfl, by rw [aggregateResults_Results]; simp⟩

/-- Witness for C6: `acme/beta` fails to list branches and contributes an
error result, while the whole namespace scan still returns one
independent result per non-archived repository. -/
theorem C6_witness :
    fxScanner.client.ListBranches fxRepoBeta.Owner fxRepoBeta.Name = .error "boom" ∧
    (fxScanner.ScanRepo 0 fxRepoBeta).Error = some "boom" ∧
    (fxScanner.ScanRepo 0 fxRepoBeta).Orphans = [] ∧
    (∃ res, fxScanner.ScanNamespaceWithProgress 0 "acme" = .ok res ∧
      res.Results = ([fxRepo, fxRepoBeta, fxRepoArchived].filter fun r => !r.Archived).map
        (fxScanner.ScanRepo 0)) := by
  have h2 := C6_error_tiers.2.1 fxScanner 0 fxRepoBeta "boom" rfl
  have h4 := C6_error_tiers.2.2.2 fxScanner 0 "acme" [fxRepo, fxRepoBeta, fxRepoArchived]
    true rfl
  exact ⟨rfl, h2.1, h2.2, h4⟩

/-- C7: on every successful scan, `TotalOrphans` equals the sum of the
orphan-list lengths over `Results`, and therefore the length of the
flattened `AllOrphans` view. -/
theorem C7_totalOrphans_sum (s : NamespaceScanner) (now : Int) (ns : String)
    (res : NamespaceScanResult) (h : s.ScanNamespaceWithProgress now ns = .ok res) :
    res.TotalOrphans = (res.Results.map fun sr => sr.Orphans.length).sum ∧
    res.TotalOrphans = res.AllOrphans.length := by
  have hlen : res.AllOrphans.length = (res.Results.map fun sr => sr.Orphans.length).sum := by
    unfold NamespaceScanResult.AllOrphans
    rw [allOrphans_foldl_length]
    simp
  suffices hsum : res.TotalOrphans = (res.Results.map fun sr => sr.Orphans.length).sum by
    exact ⟨hsum, by rw [hsum, hlen]⟩
  simp only [NamespaceScanner.ScanNamespaceWithProgress] at h
  split at h
  · exact absurd h (by simp)
  · split at h
    · simp only [Except.ok.injEq] at h
      subst h
      simp
    · simp only [Except.ok.injEq] at h
      subst h
      rw [aggregateResults_TotalOrphans, aggregateResults_Results]
      simp

/-- Witness for C7 at the fixture scanner: one stale orphan in total. -/
theorem C7_witness :
    fxScanner.ScanNamespaceWithProgress (10 * nsPerDay) "acme" = .ok fxScanOutput ∧
    fxScanOutput.TotalOrphans = (fxScanOutput.Results.map fun sr => sr.Orphans.length).sum ∧
    fxScanOutput.TotalOrphans = fxScanOutput.AllOrphans.length := by
  have h : fxScanner.ScanNamespaceWithProgress (10 * nsPerDay) "acme" = .ok fxScanOutput := rfl
  exact ⟨h, C7_totalOrphans_sum _ _ _ _ h⟩

/-- C8: with `0 < concurrency < N`, at most `concurrency` workers of the
semaphore pool run at any reachable instant, a run that can make no
further step has completed all `N` workers, and a completed scan reports
one `ScanResult` per non-archived repository with `TotalRepos = N`. -/
theorem C8_bounded_pool (conc n : Nat) (h0 : 0 < conc) (hn : conc < n) :
    (∀ st, PoolReach conc n st → runningCount st ≤ conc) ∧
    (∀ st, PoolReach conc n st → (∀ t, ¬ PoolStep conc st t) →
      st = List.replicate n Phase.done) ∧
    (∀ (s : NamespaceScanner) (now : Int) (ns : String) (repos : List Repository)
        (isOrg : Bool) (res : NamespaceScanResult),
        s.client.ListNamespaceRepositories ns = .ok (repos, isOrg) →
        s.ScanNamespaceWithProgress now ns = .ok res →
        res.TotalRepos = (repos.filter fun r => !r.Archived).length ∧
        res.Results.length = res.TotalRepos) := by
  refine ⟨fun st hr => poolReach_runningCount_le conc n st hr,
    fun st hr ht => poolReach_terminal conc n h0 st hr ht, ?_⟩
  intro s now ns repos isOrg res hlist h
  simp only [NamespaceScanner.ScanNamespaceWithProgress, hlist] at h
  split at h
  · simp only [Except.ok.injEq] at h
    subst h
    rename_i hzero
    simp [hzero]
  · simp only [Except.ok.injEq] at h
    subst h
    have hres := aggregateResults_Results
      { Namespace := ns, IsOrg := isOrg, Results := [],
        TotalRepos := (repos.filter fun r => !r.Archived).length, TotalOrphans := 0 }
      ((repos.filter fun r => !r.Archived).map (s.ScanRepo now))
    have hmeta := aggregateResults_meta
      { Namespace := ns, IsOrg := isOrg, Results := [],
        TotalRepos := (repos.filter fun r => !r.Archived).length, TotalOrphans := 0 }
      ((repos.filter fun r => !r.Archived).map (s.ScanRepo now))
    rw [hmeta.2.2, hres]
    simp

/-- Witness for C8 with capacity 1 over 2 workers, checked at the initial
pool state. -/
theorem C8_witness :
    0 < 1 ∧ 1 < 2 ∧ runningCount (List.replicate 2 Phase.pending) ≤ 1 :=
  ⟨by decide, by decide,
    (C8_bounded_pool 1 2 (by decide) (by decide)).1 _ PoolReach.init⟩

end GhSweep
